import Mathlib

/-!
Shallow embedding of the caching examples of `examples/cache_integration_examples.py`
and the Redis configuration of `config/settings.py`.

Python values are modeled by the inductive `Val`; a Python dict is an
insertion-ordered association list.  The Cache Client (`database/redis_cache`,
not part of the sources) is modeled from the spec: `get` returns the stored
value or `absent` (`Option Val`), `set` overwrites.  Possible store failures
(StoreUnavailable / SerializationFailure) are modeled by boolean fault flags,
and every externally visible action of a read path is recorded in an event
trace (`Ev`).
-/

set_option autoImplicit false

namespace CacheSpec

/-- A Python value, as far as the examples need them: `None`, booleans,
integers, strings, lists and (insertion-ordered) dicts. -/
inductive Val where
  | vNone : Val
  | vBool : Bool → Val
  | vInt : Int → Val
  | vStr : String → Val
  | vList : List Val → Val
  | vDict : List (Val × Val) → Val

mutual

/-- Decidable equality on `Val` (the deriving handler does not support the
nested occurrences of `List`, so it is spelled out). -/
def Val.deq : (a b : Val) → Decidable (a = b)
  | .vNone, .vNone => .isTrue rfl
  | .vNone, .vBool _ => .isFalse (fun h => Val.noConfusion h)
  | .vNone, .vInt _ => .isFalse (fun h => Val.noConfusion h)
  | .vNone, .vStr _ => .isFalse (fun h => Val.noConfusion h)
  | .vNone, .vList _ => .isFalse (fun h => Val.noConfusion h)
  | .vNone, .vDict _ => .isFalse (fun h => Val.noConfusion h)
  | .vBool _, .vNone => .isFalse (fun h => Val.noConfusion h)
  | .vBool a, .vBool b =>
    if h : a = b then .isTrue (by rw [h]) else .isFalse (fun he => h (Val.vBool.inj he))
  | .vBool _, .vInt _ => .isFalse (fun h => Val.noConfusion h)
  | .vBool _, .vStr _ => .isFalse (fun h => Val.noConfusion h)
  | .vBool _, .vList _ => .isFalse (fun h => Val.noConfusion h)
  | .vBool _, .vDict _ => .isFalse (fun h => Val.noConfusion h)
  | .vInt _, .vNone => .isFalse (fun h => Val.noConfusion h)
  | .vInt _, .vBool _ => .isFalse (fun h => Val.noConfusion h)
  | .vInt a, .vInt b =>
    if h : a = b then .isTrue (by rw [h]) else .isFalse (fun he => h (Val.vInt.inj he))
  | .vInt _, .vStr _ => .isFalse (fun h => Val.noConfusion h)
  | .vInt _, .vList _ => .isFalse (fun h => Val.noConfusion h)
  | .vInt _, .vDict _ => .isFalse (fun h => Val.noConfusion h)
  | .vStr _, .vNone => .isFalse (fun h => Val.noConfusion h)
  | .vStr _, .vBool _ => .isFalse (fun h => Val.noConfusion h)
  | .vStr _, .vInt _ => .isFalse (fun h => Val.noConfusion h)
  | .vStr a, .vStr b =>
    if h : a = b then .isTrue (by rw [h]) else .isFalse (fun he => h (Val.vStr.inj he))
  | .vStr _, .vList _ => .isFalse (fun h => Val.noConfusion h)
  | .vStr _, .vDict _ => .isFalse (fun h => Val.noConfusion h)
  | .vList _, .vNone => .isFalse (fun h => Val.noConfusion h)
  | .vList _, .vBool _ => .isFalse (fun h => Val.noConfusion h)
  | .vList _, .vInt _ => .isFalse (fun h => Val.noConfusion h)
  | .vList _, .vStr _ => .isFalse (fun h => Val.noConfusion h)
  | .vList xs, .vList ys =>
    match Val.deqL xs ys with
    | .isTrue h => .isTrue (by rw [h])
    | .isFalse h => .isFalse (fun he => h (Val.vList.inj he))
  | .vList _, .vDict _ => .isFalse (fun h => Val.noConfusion h)
  | .vDict _, .vNone => .isFalse (fun h => Val.noConfusion h)
  | .vDict _, .vBool _ => .isFalse (fun h => Val.noConfusion h)
  | .vDict _, .vInt _ => .isFalse (fun h => Val.noConfusion h)
  | .vDict _, .vStr _ => .isFalse (fun h => Val.noConfusion h)
  | .vDict _, .vList _ => .isFalse (fun h => Val.noConfusion h)
  | .vDict xs, .vDict ys =>
    match Val.deqD xs ys with
    | .isTrue h => .isTrue (by rw [h])
    | .isFalse h => .isFalse (fun he => h (Val.vDict.inj he))

/-- Decidable equality on lists of `Val`. -/
def Val.deqL : (a b : List Val) → Decidable (a = b)
  | [], [] => .isTrue rfl
  | [], _ :: _ => .isFalse (fun h => List.noConfusion h)
  | _ :: _, [] => .isFalse (fun h => List.noConfusion h)
  | x :: xs, y :: ys =>
    match Val.deq x y, Val.deqL xs ys with
    | .isTrue h1, .isTrue h2 => .isTrue (by rw [h1, h2])
    | .isFalse h1, _ => .isFalse (fun he => by cases he; exact h1 rfl)
    | _, .isFalse h2 => .isFalse (fun he => by cases he; exact h2 rfl)

/-- Decidable equality on lists of `Val` pairs. -/
def Val.deqD : (a b : List (Val × Val)) → Decidable (a = b)
  | [], [] => .isTrue rfl
  | [], _ :: _ => .isFalse (fun h => List.noConfusion h)
  | _ :: _, [] => .isFalse (fun h => List.noConfusion h)
  | (k1, v1) :: xs, (k2, v2) :: ys =>
    match Val.deq k1 k2, Val.deq v1 v2, Val.deqD xs ys with
    | .isTrue h1, .isTrue h2, .isTrue h3 => .isTrue (by rw [h1, h2, h3])
    | .isFalse h1, _, _ => .isFalse (fun he => by cases he; exact h1 rfl)
    | _, .isFalse h2, _ => .isFalse (fun he => by cases he; exact h2 rfl)
    | _, _, .isFalse h3 => .isFalse (fun he => by cases he; exact h3 rfl)

end

instance : DecidableEq Val := Val.deq

/-- Python truthiness of a value (`if v:`): `None`, `False`, `0`, `""`,
`[]` and `{}` are falsy, everything else truthy. -/
def Val.truthy : Val → Bool
  | .vNone => false
  | .vBool b => b
  | .vInt n => n != 0
  | .vStr s => s ≠ ""
  | .vList xs => xs ≠ []
  | .vDict kvs => kvs ≠ []

/-- Truthiness of a Python variable that may hold `None` (a missed
`cache.get` returns `None`). -/
def optTruthy : Option Val → Bool
  | none => false
  | some v => v.truthy

/-- A Python dict as the examples use it: an insertion-ordered association
list with `Val` keys. -/
abbrev PyDict := List (Val × Val)

/-- Lookup in a `PyDict`, first binding wins (`d.get(k)` without default). -/
def PyDict.lookupV (d : PyDict) (k : Val) : Option Val :=
  (d.find? (fun p => p.1 = k)).map (·.2)

/-- Python `d.get(k, default)`. -/
def PyDict.getD (d : PyDict) (k : Val) (dflt : Val) : Val :=
  (d.lookupV k).getD dflt

/-- Modelled from the spec: the state of the backing store of the Cache
Client (`database/redis_cache`, not among the sources) is a finite map from
key strings to stored values; the newest binding for a key wins. -/
def Cache := List (String × Val)

/-- Modelled from the spec: `get(key) -> value | absent` - returns the
stored value if present, `absent` (Python `None`) otherwise. -/
def Cache.get (c : Cache) (key : String) : Option Val :=
  (List.find? (fun p => p.1 = key) c).map (·.2)

/-- Modelled from the spec: `set(key, value, ttl)` overwrites any existing
entry at `key` atomically (the TTL is recorded on the event trace, not in
the state, since no claim reads it back). -/
def Cache.set (c : Cache) (key : String) (v : Val) : Cache :=
  (key, v) :: c

/-- Externally visible actions of one logical call of a read path, in
program order: acquiring the client (`await get_cache()`), a `cache.get`,
a `cache.set` (recorded with the value and TTL passed), an invocation of
the underlying fetch/fallback function, a database write, and the
scheduling of a background task (`asyncio.create_task`). -/
inductive Ev where
  | evGetCache : Ev
  | evGet : String → Ev
  | evSet : String → Val → Nat → Ev
  | evFetch : Ev
  | evDbWrite : Int → String → Int → Ev
  | evSpawn : String → Ev
  deriving DecidableEq

/-- True exactly on a `cache.set` event for `key`. -/
def Ev.isSetOn (key : String) : Ev → Bool
  | .evSet k _ _ => k = key
  | _ => false

/-- True exactly on a `cache.get` event for `key`. -/
def Ev.isGetOn (key : String) : Ev → Bool
  | .evGet k => k = key
  | _ => false

/-- Every `cache.set` on `key` in the trace is preceded by a `cache.get`
on the same `key` (read-miss-then-write ordering). -/
def getBeforeSet (key : String) (tr : List Ev) : Prop :=
  ∀ i : Fin tr.length, (tr.get i).isSetOn key →
    ∃ j : Fin tr.length, j.val < i.val ∧ (tr.get j).isGetOn key

instance (key : String) (tr : List Ev) : Decidable (getBeforeSet key tr) := by
  unfold getBeforeSet; infer_instance

/-! ## `config/settings.py`: `RedisConfig` -/

/-- The fields of class `RedisConfig` in `config/settings.py`. -/
structure RedisConfig where
  REDIS_HOST : String
  REDIS_PORT : Int
  REDIS_DB : Int
  REDIS_PASSWORD : String
  REDIS_URL : String
  CACHE_TTL : Int
  CACHE_PREFIX : String
  deriving DecidableEq, Repr

/-- `RedisConfig.get_redis_url` of `config/settings.py`: the URL, when
truthy, takes precedence; otherwise the URL is assembled from the discrete
settings, with the password segment only when the password is truthy
(f-string interpolation is string concatenation with `toString`). -/
def get_redis_url (c : RedisConfig) : String :=
  if c.REDIS_URL ≠ "" then c.REDIS_URL
  else if c.REDIS_PASSWORD ≠ "" then
    "redis://:" ++ c.REDIS_PASSWORD ++ "@" ++ c.REDIS_HOST ++ ":" ++
      toString c.REDIS_PORT ++ "/" ++ toString c.REDIS_DB
  else
    "redis://" ++ c.REDIS_HOST ++ ":" ++ toString c.REDIS_PORT ++ "/" ++
      toString c.REDIS_DB

/-- Helper for `pyInt`: reads a nonempty all-digit suffix left to right. -/
def digitsToNat (acc : Nat) : List Char → Option Nat
  | [] => some acc
  | c :: cs => if c.isDigit then digitsToNat (acc * 10 + (c.toNat - 48)) cs else none

/-- Python `int(s)` on the decimal strings `settings.py` feeds it: an
optional sign followed by decimal digits; `none` models the `ValueError`
raised on anything else. -/
def pyInt (s : String) : Option Int :=
  match s.data with
  | [] => none
  | '-' :: cs => if cs = [] then none else (digitsToNat 0 cs).map (fun n => -(n : Int))
  | '+' :: cs => if cs = [] then none else (digitsToNat 0 cs).map (fun n => (n : Int))
  | cs => (digitsToNat 0 cs).map (fun n => (n : Int))

/-- Python `os.getenv(key, default)` over an environment `env`. -/
def getenv (env : String → Option String) (key dflt : String) : String :=
  (env key).getD dflt

/-- The class body of `RedisConfig`, executed once at module load time:
each field is read from the environment with its documented default, the
numeric ones through `int(...)` (modeled by `pyInt`). -/
def loadRedisConfig (env : String → Option String) : Option RedisConfig := do
  let port ← pyInt (getenv env "REDIS_PORT" "6379")
  let db ← pyInt (getenv env "REDIS_DB" "0")
  let ttl ← pyInt (getenv env "CACHE_TTL" "3600")
  pure {
    REDIS_HOST := getenv env "REDIS_HOST" "localhost"
    REDIS_PORT := port
    REDIS_DB := db
    REDIS_PASSWORD := getenv env "REDIS_PASSWORD" ""
    REDIS_URL := getenv env "REDIS_URL" ""
    CACHE_TTL := ttl
    CACHE_PREFIX := getenv env "CACHE_PREFIX" "bot_cache:" }

/-! ## `examples/cache_integration_examples.py`

The module's collaborators that the spec scopes out (`fetch_user_data_from_db`,
`fetch_data_from_db`, `get_counter_from_db`, `update_counter_in_db`,
`fetch_users_by_group`, the fallback/fetch callables, the runtime task
scheduler behind `asyncio.create_task`) enter the embedding as parameters
and as trace events. -/

/-- The f-string key `f"user_data:{user_id}"` of example 8. -/
def user_data_key (user_id : Int) : String :=
  "user_data:" ++ toString user_id

/-- The f-string key `f"priority_data:{data_type}:{priority}"` of example 9. -/
def priority_data_key (data_type priority : String) : String :=
  "priority_data:" ++ data_type ++ ":" ++ priority

/-- The f-string key `f"user_counter:{user_id}:{counter_type}"` of example 13. -/
def counter_cache_key (user_id : Int) (counter_type : String) : String :=
  "user_counter:" ++ toString user_id ++ ":" ++ counter_type

/-- The f-string key `f"grouped_users:{group_id}"` of example 14. -/
def grouped_users_key (group_id : String) : String :=
  "grouped_users:" ++ group_id

/-- Example 8, `get_user_data_with_conditional_cache`: conditional caching.
`fetched` is the dict `fetch_user_data_from_db(user_id)` would return.
Returns the result value, the cache afterwards, and the event trace.
The hit test is Python truthiness (`if cached_data:`). -/
def get_user_data_with_conditional_cache (c : Cache) (user_id : Int)
    (fetched : PyDict) : Val × Cache × List Ev :=
  let key := user_data_key user_id
  let cached := Cache.get c key
  if optTruthy cached then
    (cached.getD .vNone, c, [.evGetCache, .evGet key])
  else
    let user_data := Val.vDict fetched
    if (PyDict.getD fetched (.vStr "is_active") .vNone).truthy then
      (user_data, Cache.set c key user_data,
        [.evGetCache, .evGet key, .evFetch, .evSet key user_data 1800])
    else
      (user_data, c, [.evGetCache, .evGet key, .evFetch])

/-- The `ttl_map` literal of example 9 (`dict.get(priority, 1800)`). -/
def ttl_map : List (String × Nat) :=
  [("high", 300), ("normal", 1800), ("low", 7200)]

/-- Example 9, `get_priority_data`: TTL chosen by priority, truthy hit test,
unconditional `set` on a miss.  `fetched` is `fetch_data_from_db(data_type)`. -/
def get_priority_data (c : Cache) (data_type priority : String)
    (fetched : Val) : Val × Cache × List Ev :=
  let ttl := (ttl_map.lookup priority).getD 1800
  let cache_key := priority_data_key data_type priority
  let cached := Cache.get c cache_key
  if optTruthy cached then
    (cached.getD .vNone, c, [.evGetCache, .evGet cache_key])
  else
    (fetched, Cache.set c cache_key fetched,
      [.evGetCache, .evGet cache_key, .evFetch, .evSet cache_key fetched ttl])

/-- Which cache-client operations raise during one call (StoreUnavailable /
SerializationFailure, spec section 7).  A flag only matters when the
corresponding operation is actually reached. -/
structure Faults where
  get_cache_raises : Bool
  get_raises : Bool
  set_raises : Bool
  deriving DecidableEq, Repr

/-- Example 11, the `try` block of `safe_cache_get`.  `fb i` is the value the
`i`-th invocation of `fallback_func` returns.  Yields the block's outcome
(`Except.error ()` when a cache operation raised), how many times
`fallback_func` was invoked inside the block, and the event trace.  The hit
test is `cached_data is not None`, so any present value is returned. -/
def safe_cache_try (flt : Faults) (c : Cache) (key : String)
    (fb : Nat → Val) (ttl : Nat) :
    Except Unit (Val × Cache) × Nat × List Ev :=
  if flt.get_cache_raises then
    (.error (), 0, [.evGetCache])
  else if flt.get_raises then
    (.error (), 0, [.evGetCache, .evGet key])
  else
    match Cache.get c key with
    | some v => (.ok (v, c), 0, [.evGetCache, .evGet key])
    | none =>
      let data := fb 0
      if flt.set_raises then
        (.error (), 1, [.evGetCache, .evGet key, .evFetch, .evSet key data ttl])
      else
        (.ok (data, Cache.set c key data), 1,
          [.evGetCache, .evGet key, .evFetch, .evSet key data ttl])

/-- Example 11, `safe_cache_get`: the `try` block, and on any exception the
handler `return await fallback_func()` - a fresh invocation of the fallback.
Yields the returned value (`Except.error` would mean an exception escaped
to the caller), the cache afterwards, the total number of `fallback_func`
invocations, and the trace. -/
def safe_cache_get (flt : Faults) (c : Cache) (key : String)
    (fb : Nat → Val) (ttl : Nat) :
    Except Unit Val × Cache × Nat × List Ev :=
  match safe_cache_try flt c key fb ttl with
  | (.ok (v, c2), n, tr) => (.ok v, c2, n, tr)
  | (.error (), n, tr) => (.ok (fb n), c, n + 1, tr ++ [.evFetch])

/-- Example 13, `increment_user_counter`.  `dbval` is the counter
`get_counter_from_db` would return.  `Except.error ()` is the `TypeError` of
`current_value + 1` on a cached non-integer.  Yields the returned value, the
cache afterwards, and the trace (the database write is the
`evDbWrite` event). -/
def increment_user_counter (c : Cache) (user_id : Int) (counter_type : String)
    (dbval : Int) : Except Unit (Int × Cache × List Ev) :=
  let cache_key := counter_cache_key user_id counter_type
  match Cache.get c cache_key with
  | some (.vInt n) =>
    let new_value := n + 1
    .ok (new_value, Cache.set c cache_key (.vInt new_value),
      [.evGetCache, .evGet cache_key, .evSet cache_key (.vInt new_value) 7200,
        .evDbWrite user_id counter_type new_value])
  | some _ => .error ()
  | none =>
    let new_value := dbval + 1
    .ok (new_value, Cache.set c cache_key (.vInt new_value),
      [.evGetCache, .evGet cache_key, .evFetch,
        .evSet cache_key (.vInt new_value) 7200,
        .evDbWrite user_id counter_type new_value])

/-- Example 14, the status of a user row: `user.get("status", "unknown")`. -/
def statusOf (user : PyDict) : Val :=
  PyDict.getD user (.vStr "status") (.vStr "unknown")

/-- One iteration of the grouping loop of example 14: if `s` is not yet a key
of the insertion-ordered dict `gd`, bind it to `[]` at the end; then append
`u` to the list at `s`. -/
def dinsert (gd : List (Val × List PyDict)) (s : Val) (u : PyDict) :
    List (Val × List PyDict) :=
  match gd with
  | [] => [(s, [u])]
  | (k, vs) :: rest =>
    if k = s then (k, vs ++ [u]) :: rest else (k, vs) :: dinsert rest s u

/-- The grouping loop of example 14 over the fetched rows. -/
def group_by_status (users : List PyDict) : List (Val × List PyDict) :=
  users.foldl (fun gd u => dinsert gd (statusOf u) u) []

/-- The grouped dict as the Python value that example 14 caches and returns. -/
def groupedVal (gd : List (Val × List PyDict)) : Val :=
  .vDict (gd.map fun p => (p.1, .vList (p.2.map Val.vDict)))

/-- Example 14, `get_grouped_user_data`.  `users` is the row list
`fetch_users_by_group(group_id)` would return.  Truthy hit test; on a miss
the rows are grouped by status and the grouped dict is cached with TTL 1800
and returned. -/
def get_grouped_user_data (c : Cache) (group_id : String)
    (users : List PyDict) : Val × Cache × List Ev :=
  let cache_key := grouped_users_key group_id
  let cached := Cache.get c cache_key
  if optTruthy cached then
    (cached.getD .vNone, c, [.evGetCache, .evGet cache_key])
  else
    let grouped_data := groupedVal (group_by_status users)
    (grouped_data, Cache.set c cache_key grouped_data,
      [.evGetCache, .evGet cache_key, .evFetch,
        .evSet cache_key grouped_data 1800])

/-- Example 15, `get_auto_refresh_data`.  `fetched` is what `fetch_func()`
would return.  On a truthy hit a background refresh task is scheduled
(`asyncio.create_task`, the `evSpawn` event) and the cached value is
returned without awaiting the task; on a miss the value is fetched,
cached and returned. -/
def get_auto_refresh_data (c : Cache) (key : String) (fetched : Val)
    (ttl : Nat) : Val × Cache × List Ev :=
  let cached := Cache.get c key
  if optTruthy cached then
    (cached.getD .vNone, c, [.evGetCache, .evGet key, .evSpawn key])
  else
    (fetched, Cache.set c key fetched,
      [.evGetCache, .evGet key, .evFetch, .evSet key fetched ttl])

/-- Example 15, the `try` block of `refresh_cache_background`.  `producer`
is the outcome of `await fetch_func()` (`Except.error ()` when the producer
itself raises).  Yields the outcome and the trace. -/
def refresh_try (flt : Faults) (c : Cache) (key : String)
    (producer : Except Unit Val) (ttl : Nat) : Except Unit Cache × List Ev :=
  if flt.get_cache_raises then
    (.error (), [.evGetCache])
  else
    match producer with
    | .error () => (.error (), [.evGetCache, .evFetch])
    | .ok new_data =>
      if flt.set_raises then
        (.error (), [.evGetCache, .evFetch, .evSet key new_data ttl])
      else
        (.ok (Cache.set c key new_data),
          [.evGetCache, .evFetch, .evSet key new_data ttl])

/-- Example 15, `refresh_cache_background`: the `try` block with a
catch-all handler that logs and discards the failure, leaving the cache as
it was.  The first component is what the caller observes
(`Except.error` would mean an exception propagated). -/
def refresh_cache_background (flt : Faults) (c : Cache) (key : String)
    (producer : Except Unit Val) (ttl : Nat) : Except Unit Cache × List Ev :=
  match refresh_try flt c key producer ttl with
  | (.ok c2, tr) => (.ok c2, tr)
  | (.error (), tr) => (.ok c, tr)

/-! ## Claims -/

/-- C4: `RedisConfig.get_redis_url` returns `REDIS_URL` whenever it is a
non-empty string; otherwise it returns the URL with the password segment
when `REDIS_PASSWORD` is non-empty and without it when the password is
empty. -/
theorem c4_get_redis_url (c : RedisConfig) :
    (c.REDIS_URL ≠ "" → get_redis_url c = c.REDIS_URL) ∧
    (c.REDIS_URL = "" → c.REDIS_PASSWORD ≠ "" →
      get_redis_url c = "redis://:" ++ c.REDIS_PASSWORD ++ "@" ++ c.REDIS_HOST
        ++ ":" ++ toString c.REDIS_PORT ++ "/" ++ toString c.REDIS_DB) ∧
    (c.REDIS_URL = "" → c.REDIS_PASSWORD = "" →
      get_redis_url c = "redis://" ++ c.REDIS_HOST ++ ":" ++
        toString c.REDIS_PORT ++ "/" ++ toString c.REDIS_DB) := by
  refine ⟨fun h => ?_, fun h hp => ?_, fun h hp => ?_⟩
  · simp [get_redis_url, h]
  · simp [get_redis_url, h, hp]
  · simp [get_redis_url, h, hp]

/-- Witness for C4 at three concrete configurations, one per branch. -/
theorem c4_get_redis_url_witness :
    (("redis://u" : String) ≠ "" ∧
      get_redis_url ⟨"h", 1, 2, "pw", "redis://u", 3600, "p"⟩ = "redis://u") ∧
    (("pw" : String) ≠ "" ∧
      get_redis_url ⟨"h", 1, 2, "pw", "", 3600, "p"⟩ = "redis://:pw@h:1/2") ∧
    get_redis_url ⟨"h", 1, 2, "", "", 3600, "p"⟩ = "redis://h:1/2" :=
  ⟨⟨by decide, (c4_get_redis_url ⟨"h", 1, 2, "pw", "redis://u", 3600, "p"⟩).1
      (by decide)⟩,
   ⟨by decide, ((c4_get_redis_url ⟨"h", 1, 2, "pw", "", 3600, "p"⟩).2.1 rfl
      (by decide)).trans rfl⟩,
   ((c4_get_redis_url ⟨"h", 1, 2, "", "", 3600, "p"⟩).2.2 rfl rfl).trans rfl⟩

/-- C5: with the environment empty, the `RedisConfig` class body loads the
documented defaults: host `localhost`, port `6379`, db `0`, empty password,
TTL `3600` seconds and key prefix `bot_cache:` (all of them read once, by
the single evaluation of the class body at module load). -/
theorem c5_defaults (env : String → Option String) (h : ∀ k, env k = none) :
    loadRedisConfig env = some
      { REDIS_HOST := "localhost", REDIS_PORT := 6379, REDIS_DB := 0,
        REDIS_PASSWORD := "", REDIS_URL := "", CACHE_TTL := 3600,
        CACHE_PREFIX := "bot_cache:" } := by
  simp only [loadRedisConfig, getenv, h, Option.getD_none]
  decide

/-- Witness for C5: the everywhere-undefined environment. -/
theorem c5_defaults_witness :
    (∀ k : String, (fun _ : String => (none : Option String)) k = none) ∧
    loadRedisConfig (fun _ => none) = some
      { REDIS_HOST := "localhost", REDIS_PORT := 6379, REDIS_DB := 0,
        REDIS_PASSWORD := "", REDIS_URL := "", CACHE_TTL := 3600,
        CACHE_PREFIX := "bot_cache:" } :=
  ⟨fun _ => rfl, c5_defaults (fun _ => none) (fun _ => rfl)⟩

/-- C2: whenever a cache operation inside `safe_cache_get` raises (the
`try` block ends in an exception), the call still returns normally, and
what it returns is the value produced by an invocation of `fallback_func`
(the one the `except` handler performs). -/
theorem c2_safe_cache_get_degrades (flt : Faults) (c : Cache) (key : String)
    (fb : Nat → Val) (ttl : Nat) :
    (∃ v, (safe_cache_get flt c key fb ttl).1 = .ok v) ∧
    ((safe_cache_try flt c key fb ttl).1 = .error () →
      (safe_cache_get flt c key fb ttl).1 =
        .ok (fb (safe_cache_try flt c key fb ttl).2.1)) := by
  unfold safe_cache_get
  rcases hs : safe_cache_try flt c key fb ttl with ⟨o, n, tr⟩
  rcases o with ⟨⟩ | ⟨v, c2⟩
  · exact ⟨⟨fb n, rfl⟩, fun _ => rfl⟩
  · refine ⟨⟨v, rfl⟩, fun he => ?_⟩
    simp at he

/-- Witness for C2: the store is unreachable already at `get_cache`, yet the
call returns the fallback value. -/
theorem c2_safe_cache_get_degrades_witness :
    (safe_cache_try ⟨true, false, false⟩ [] "k" (fun n => .vInt n) 5).1
      = .error () ∧
    (safe_cache_get ⟨true, false, false⟩ [] "k" (fun n => .vInt n) 5).1
      = .ok (.vInt 0) :=
  ⟨rfl, (c2_safe_cache_get_degrades ⟨true, false, false⟩ [] "k"
    (fun n => .vInt n) 5).2 rfl⟩

/-- C3 counterexample: on a miss with `cache.set` raising, `fallback_func`
is invoked twice (once in the `try` block, once more by the `except`
handler), not exactly once, and the second result is what is returned. -/
theorem c3_counterexample :
    Cache.get ([] : Cache) "k" = none ∧
    (safe_cache_get ⟨false, false, true⟩ [] "k" (fun n => .vInt n) 5).2.2.1
      = 2 ∧
    (safe_cache_get ⟨false, false, true⟩ [] "k" (fun n => .vInt n) 5).1
      = .ok (.vInt 1) := by
  refine ⟨rfl, rfl, rfl⟩

/-- C3 (amended): on a miss, when `get_cache` and `cache.get` succeed, the
fallback is invoked exactly once and its value returned provided
`cache.set` also succeeds; when `cache.set` raises, the `except` handler
invokes the fallback a second time and returns that second value. -/
theorem c3_fallback_on_miss (flt : Faults) (c : Cache) (key : String)
    (fb : Nat → Val) (ttl : Nat)
    (hmiss : Cache.get c key = none)
    (hgc : flt.get_cache_raises = false) (hg : flt.get_raises = false) :
    (flt.set_raises = false →
      (safe_cache_get flt c key fb ttl).2.2.1 = 1 ∧
      (safe_cache_get flt c key fb ttl).1 = .ok (fb 0)) ∧
    (flt.set_raises = true →
      (safe_cache_get flt c key fb ttl).2.2.1 = 2 ∧
      (safe_cache_get flt c key fb ttl).1 = .ok (fb 1)) := by
  rcases flt with ⟨a, b, s⟩
  simp only at hgc hg
  subst hgc hg
  unfold safe_cache_get safe_cache_try
  simp only [Bool.false_eq_true, if_false, hmiss]
  cases s <;> simp

/-- Witness for C3 (amended): a miss on the empty cache with a healthy
store invokes the fallback once and returns its value. -/
theorem c3_fallback_on_miss_witness :
    Cache.get ([] : Cache) "k" = none ∧
    (safe_cache_get ⟨false, false, false⟩ [] "k" (fun n => .vInt n) 5).2.2.1
      = 1 ∧
    (safe_cache_get ⟨false, false, false⟩ [] "k" (fun n => .vInt n) 5).1
      = .ok (.vInt 0) :=
  ⟨rfl,
    ((c3_fallback_on_miss ⟨false, false, false⟩ [] "k" (fun n => .vInt n) 5
      rfl rfl rfl).1 rfl).1,
    ((c3_fallback_on_miss ⟨false, false, false⟩ [] "k" (fun n => .vInt n) 5
      rfl rfl rfl).1 rfl).2⟩

/-- C1 counterexample: a cached falsy value (the empty dict) is present in
the cache, yet `get_user_data_with_conditional_cache` invokes the underlying
fetch, because the hit test `if cached_data:` is truthiness, not presence. -/
theorem c1_counterexample :
    Cache.get [("user_data:1", Val.vDict [])] (user_data_key 1)
      = some (.vDict []) ∧
    Ev.evFetch ∈ (get_user_data_with_conditional_cache
      [("user_data:1", .vDict [])] 1 []).2.2 := by
  exact ⟨by decide, by decide⟩

/-- C1 (amended): for every key whose cached entry is truthy, the read
paths `get_user_data_with_conditional_cache` and `get_grouped_user_data`
return the cached value and do not invoke the underlying fetch; a cached
falsy value (empty dict or list) is instead treated as a miss. -/
theorem c1_truthy_hit_returns_cached (c : Cache) (user_id : Int)
    (fetched : PyDict) (group_id : String) (users : List PyDict) (v w : Val)
    (h1 : Cache.get c (user_data_key user_id) = some v) (hv : v.truthy = true)
    (h2 : Cache.get c (grouped_users_key group_id) = some w)
    (hw : w.truthy = true) :
    (get_user_data_with_conditional_cache c user_id fetched).1 = v ∧
    Ev.evFetch ∉ (get_user_data_with_conditional_cache c user_id fetched).2.2 ∧
    (get_grouped_user_data c group_id users).1 = w ∧
    Ev.evFetch ∉ (get_grouped_user_data c group_id users).2.2 := by
  unfold get_user_data_with_conditional_cache get_grouped_user_data
  simp [h1, h2, optTruthy, hv, hw]

/-- Witness for C1 at a cache holding truthy values for both keys. -/
theorem c1_truthy_hit_returns_cached_witness :
    Cache.get [("user_data:1", Val.vInt 7), ("grouped_users:g", Val.vStr "x")]
      (user_data_key 1) = some (.vInt 7) ∧
    (Val.vInt 7).truthy = true ∧
    Cache.get [("user_data:1", Val.vInt 7), ("grouped_users:g", Val.vStr "x")]
      (grouped_users_key "g") = some (.vStr "x") ∧
    (Val.vStr "x").truthy = true ∧
    (get_user_data_with_conditional_cache
      [("user_data:1", .vInt 7), ("grouped_users:g", .vStr "x")] 1 []).1
      = .vInt 7 ∧
    (get_grouped_user_data
      [("user_data:1", .vInt 7), ("grouped_users:g", .vStr "x")] "g" []).1
      = .vStr "x" :=
  ⟨by decide, by decide, by decide, by decide,
    (c1_truthy_hit_returns_cached
      [("user_data:1", .vInt 7), ("grouped_users:g", .vStr "x")] 1 [] "g" []
      (.vInt 7) (.vStr "x") (by decide) (by decide) (by decide) (by decide)).1,
    (c1_truthy_hit_returns_cached
      [("user_data:1", .vInt 7), ("grouped_users:g", .vStr "x")] 1 [] "g" []
      (.vInt 7) (.vStr "x") (by decide) (by decide) (by decide)
      (by decide)).2.2.1⟩

/-- C6: `refresh_cache_background` never propagates an exception, and when
the producer raises, no `cache.set` is performed and the cache is returned
exactly as it was. -/
theorem c6_refresh_swallows_failures (flt : Faults) (c : Cache) (key : String)
    (producer : Except Unit Val) (ttl : Nat) :
    (∃ c2, (refresh_cache_background flt c key producer ttl).1 = .ok c2) ∧
    (producer = .error () →
      (refresh_cache_background flt c key producer ttl).1 = .ok c ∧
      ∀ e ∈ (refresh_cache_background flt c key producer ttl).2,
        e.isSetOn key = false) := by
  unfold refresh_cache_background refresh_try
  rcases flt with ⟨a, b, s⟩
  cases a
  · rcases producer with ⟨⟩ | v
    · simp [Ev.isSetOn]
    · cases s <;> simp
  · simp [Ev.isSetOn]

/-- Witness for C6: a failing producer on a healthy store leaves the empty
cache untouched and performs no write. -/
theorem c6_refresh_swallows_failures_witness :
    ((Except.error () : Except Unit Val) = .error ()) ∧
    (refresh_cache_background ⟨false, false, false⟩ [] "k" (.error ()) 60).1
      = .ok ([] : Cache) ∧
    ∀ e ∈ (refresh_cache_background ⟨false, false, false⟩ [] "k"
        (.error ()) 60).2, e.isSetOn "k" = false :=
  ⟨rfl,
    ((c6_refresh_swallows_failures ⟨false, false, false⟩ [] "k"
      (.error ()) 60).2 rfl).1,
    ((c6_refresh_swallows_failures ⟨false, false, false⟩ [] "k"
      (.error ()) 60).2 rfl).2⟩

/-- C7 counterexample: a key present in the cache with a falsy value (the
empty dict) does not take the hit path of `get_auto_refresh_data`: the call
returns the freshly fetched value and schedules no background refresh. -/
theorem c7_counterexample :
    Cache.get [("k", Val.vDict [])] "k" = some (.vDict []) ∧
    (get_auto_refresh_data [("k", .vDict [])] "k" (.vStr "fresh") 60).1
      = .vStr "fresh" ∧
    Ev.evSpawn "k" ∉
      (get_auto_refresh_data [("k", .vDict [])] "k" (.vStr "fresh") 60).2.2 := by
  exact ⟨by decide, by decide, by decide⟩

/-- C7 (amended): on a truthy cached value, `get_auto_refresh_data` returns
the cached value, leaves the cache unchanged, and its trace is exactly
acquire-client, read, schedule-background-refresh - the scheduled task is
not awaited and contributes nothing further to the call. -/
theorem c7_auto_refresh_hit (c : Cache) (key : String) (fetched : Val)
    (ttl : Nat) (v : Val) (h : Cache.get c key = some v)
    (hv : v.truthy = true) :
    (get_auto_refresh_data c key fetched ttl).1 = v ∧
    (get_auto_refresh_data c key fetched ttl).2.1 = c ∧
    (get_auto_refresh_data c key fetched ttl).2.2
      = [.evGetCache, .evGet key, .evSpawn key] := by
  unfold get_auto_refresh_data
  simp [h, optTruthy, hv]

/-- Witness for C7 on a cache holding a truthy value. -/
theorem c7_auto_refresh_hit_witness :
    Cache.get [("k", Val.vInt 9)] "k" = some (.vInt 9) ∧
    (Val.vInt 9).truthy = true ∧
    (get_auto_refresh_data [("k", .vInt 9)] "k" (.vStr "fresh") 60).1
      = .vInt 9 ∧
    (get_auto_refresh_data [("k", .vInt 9)] "k" (.vStr "fresh") 60).2.2
      = [.evGetCache, .evGet "k", .evSpawn "k"] :=
  ⟨by decide, by decide,
    (c7_auto_refresh_hit [("k", .vInt 9)] "k" (.vStr "fresh") 60 (.vInt 9)
      (by decide) (by decide)).1,
    (c7_auto_refresh_hit [("k", .vInt 9)] "k" (.vStr "fresh") 60 (.vInt 9)
      (by decide) (by decide)).2.2⟩

/-- A fresh `cache.set` is the binding `cache.get` sees afterwards. -/
theorem Cache.get_set_self (c : Cache) (key : String) (v : Val) :
    Cache.get (Cache.set c key v) key = some v := by
  unfold Cache.get Cache.set
  rw [List.find?_cons_of_pos _ (by simp)]
  rfl

/-- C9: a successful `increment_user_counter` computes the prior counter
(cache first, database otherwise) plus one, writes that same value to the
cache entry and to the database, and returns it. -/
theorem c9_increment_consistent (c : Cache) (user_id : Int)
    (counter_type : String) (dbval prior : Int)
    (h : Cache.get c (counter_cache_key user_id counter_type)
          = some (.vInt prior)
       ∨ (Cache.get c (counter_cache_key user_id counter_type) = none
          ∧ prior = dbval)) :
    ∃ c2 tr, increment_user_counter c user_id counter_type dbval
        = .ok (prior + 1, c2, tr) ∧
      Cache.get c2 (counter_cache_key user_id counter_type)
        = some (.vInt (prior + 1)) ∧
      Ev.evSet (counter_cache_key user_id counter_type) (.vInt (prior + 1))
        7200 ∈ tr ∧
      Ev.evDbWrite user_id counter_type (prior + 1) ∈ tr := by
  unfold increment_user_counter
  rcases h with h | ⟨h, rfl⟩
  · simp only [h]
    exact ⟨_, _, rfl, Cache.get_set_self c _ _, by simp, by simp⟩
  · simp only [h]
    exact ⟨_, _, rfl, Cache.get_set_self c _ _, by simp, by simp⟩

/-- Witness for C9: incrementing a counter absent from the cache, with the
database holding 4, writes and returns 5. -/
theorem c9_increment_consistent_witness :
    (Cache.get ([] : Cache) (counter_cache_key 1 "msgs") = none ∧ (4 : Int) = 4) ∧
    ∃ c2 tr, increment_user_counter [] 1 "msgs" 4 = .ok (4 + 1, c2, tr) ∧
      Cache.get c2 (counter_cache_key 1 "msgs") = some (.vInt (4 + 1)) ∧
      Ev.evSet (counter_cache_key 1 "msgs") (.vInt (4 + 1)) 7200 ∈ tr ∧
      Ev.evDbWrite 1 "msgs" (4 + 1) ∈ tr :=
  ⟨⟨by decide, rfl⟩,
    c9_increment_consistent [] 1 "msgs" 4 4 (Or.inr ⟨by decide, rfl⟩)⟩

/-- A trace without any write on `key` satisfies the ordering vacuously. -/
theorem getBeforeSet_of_no_set (key : String) (tr : List Ev)
    (h : ∀ e ∈ tr, e.isSetOn key = false) : getBeforeSet key tr := by
  intro i hi
  rw [h _ (List.get_mem tr i.1 i.2)] at hi
  cases hi

/-- The miss-path trace writes `key` only after reading it. -/
theorem getBeforeSet_write_trace (key : String) (v : Val) (t : Nat) :
    getBeforeSet key [.evGetCache, .evGet key, .evFetch, .evSet key v t] := by
  intro i hi
  fin_cases i <;> simp [Ev.isSetOn, List.get] at hi
  exact ⟨⟨1, by norm_num⟩, by norm_num, by simp [Ev.isGetOn]⟩

/-- The failed-write trace of `safe_cache_get` (a trailing fallback
invocation) also writes `key` only after reading it. -/
theorem getBeforeSet_failed_write_trace (key : String) (v : Val) (t : Nat) :
    getBeforeSet key
      [.evGetCache, .evGet key, .evFetch, .evSet key v t, .evFetch] := by
  intro i hi
  fin_cases i <;> simp [Ev.isSetOn, List.get] at hi
  exact ⟨⟨1, by norm_num⟩, by norm_num, by simp [Ev.isGetOn]⟩

/-- C8: in each single logical call of `get_priority_data`,
`get_grouped_user_data` and `safe_cache_get`, every `cache.set` on the
computed key is preceded in the trace by a `cache.get` on that key, and a
`cache.set` only ever happens when that `cache.get` came back absent or
falsy (read-miss-then-write). -/
theorem c8_read_miss_then_write :
    (∀ (c : Cache) (data_type priority : String) (fetched : Val),
      getBeforeSet (priority_data_key data_type priority)
        (get_priority_data c data_type priority fetched).2.2 ∧
      ((get_priority_data c data_type priority fetched).2.2.any
          (Ev.isSetOn (priority_data_key data_type priority)) = true →
        optTruthy (Cache.get c (priority_data_key data_type priority))
          = false)) ∧
    (∀ (c : Cache) (group_id : String) (users : List PyDict),
      getBeforeSet (grouped_users_key group_id)
        (get_grouped_user_data c group_id users).2.2 ∧
      ((get_grouped_user_data c group_id users).2.2.any
          (Ev.isSetOn (grouped_users_key group_id)) = true →
        optTruthy (Cache.get c (grouped_users_key group_id)) = false)) ∧
    (∀ (flt : Faults) (c : Cache) (key : String) (fb : Nat → Val) (ttl : Nat),
      getBeforeSet key (safe_cache_get flt c key fb ttl).2.2.2 ∧
      ((safe_cache_get flt c key fb ttl).2.2.2.any (Ev.isSetOn key) = true →
        Cache.get c key = none)) := by
  refine ⟨fun c dt pr f => ?_, fun c g us => ?_, fun flt c key fb ttl => ?_⟩
  · unfold get_priority_data
    cases ht : optTruthy (Cache.get c (priority_data_key dt pr)) with
    | false =>
      simp only [ht, Bool.false_eq_true, if_false]
      exact ⟨getBeforeSet_write_trace _ _ _, fun _ => trivial⟩
    | true =>
      simp only [ht, if_true]
      refine ⟨getBeforeSet_of_no_set _ _ (by simp [Ev.isSetOn]), fun hany => ?_⟩
      simp [Ev.isSetOn] at hany
  · unfold get_grouped_user_data
    cases ht : optTruthy (Cache.get c (grouped_users_key g)) with
    | false =>
      simp only [ht, Bool.false_eq_true, if_false]
      exact ⟨getBeforeSet_write_trace _ _ _, fun _ => trivial⟩
    | true =>
      simp only [ht, if_true]
      refine ⟨getBeforeSet_of_no_set _ _ (by simp [Ev.isSetOn]), fun hany => ?_⟩
      simp [Ev.isSetOn] at hany
  · rcases flt with ⟨a, b, s⟩
    unfold safe_cache_get safe_cache_try
    cases a
    · cases b
      · cases hc : Cache.get c key with
        | some v =>
          simp only [hc, Bool.false_eq_true, if_false]
          refine ⟨getBeforeSet_of_no_set _ _ (by simp [Ev.isSetOn]),
            fun hany => ?_⟩
          simp [Ev.isSetOn] at hany
        | none =>
          cases s
          · simp only [hc, Bool.false_eq_true, if_false]
            exact ⟨getBeforeSet_write_trace _ _ _, fun _ => trivial⟩
          · simp only [hc, Bool.false_eq_true, if_false, if_true]
            exact ⟨getBeforeSet_failed_write_trace _ _ _, fun _ => trivial⟩
      · simp only [Bool.false_eq_true, if_false, if_true]
        refine ⟨getBeforeSet_of_no_set _ _ (by simp [Ev.isSetOn]),
          fun hany => ?_⟩
        simp [Ev.isSetOn] at hany
    · simp only [if_true]
      refine ⟨getBeforeSet_of_no_set _ _ (by simp [Ev.isSetOn]),
        fun hany => ?_⟩
      simp [Ev.isSetOn] at hany

/-- Witness for C8: a healthy-store miss of `safe_cache_get` does write, the
write follows the read, and the read had come back absent. -/
theorem c8_read_miss_then_write_witness :
    ((safe_cache_get ⟨false, false, false⟩ [] "k" (fun n => .vInt n) 5).2.2.2.any
        (Ev.isSetOn "k") = true) ∧
    getBeforeSet "k"
      (safe_cache_get ⟨false, false, false⟩ [] "k" (fun n => .vInt n) 5).2.2.2 ∧
    Cache.get ([] : Cache) "k" = none :=
  ⟨by decide,
    (c8_read_miss_then_write.2.2 ⟨false, false, false⟩ [] "k"
      (fun n => .vInt n) 5).1,
    (c8_read_miss_then_write.2.2 ⟨false, false, false⟩ [] "k"
      (fun n => .vInt n) 5).2 (by decide)⟩

/-- The group list bound to status `s` in the grouped dict (first entry
wins; `dinsert` keeps keys unique anyway). -/
def findGroup : List (Val × List PyDict) → Val → Option (List PyDict)
  | [], _ => none
  | (k, vs) :: rest, s => if k = s then some vs else findGroup rest s

/-- Inserting `u` under `s` appends `u` to the group of `s`. -/
theorem findGroup_dinsert_self (gd : List (Val × List PyDict)) (s : Val)
    (u : PyDict) :
    findGroup (dinsert gd s u) s = some ((findGroup gd s).getD [] ++ [u]) := by
  induction gd with
  | nil => simp [dinsert, findGroup]
  | cons p rest ih =>
    rcases p with ⟨k, vs⟩
    by_cases hk : k = s
    · subst hk; simp [dinsert, findGroup]
    · simp [dinsert, findGroup, hk, ih]

/-- Inserting under `s` leaves every other group unchanged. -/
theorem findGroup_dinsert_other (gd : List (Val × List PyDict)) (s s' : Val)
    (u : PyDict) (h : s' ≠ s) :
    findGroup (dinsert gd s u) s' = findGroup gd s' := by
  induction gd with
  | nil => simp [dinsert, findGroup, Ne.symm h]
  | cons p rest ih =>
    rcases p with ⟨k, vs⟩
    by_cases hk : k = s
    · subst hk; simp [dinsert, findGroup, Ne.symm h]
    · by_cases hk' : k = s'
      · subst hk'; simp [dinsert, findGroup, hk]
      · simp [dinsert, findGroup, hk, hk', ih]

/-- Keys after `dinsert`: unchanged on a known status, the status appended
on a fresh one. -/
theorem dinsert_map_fst (gd : List (Val × List PyDict)) (s : Val)
    (u : PyDict) :
    (dinsert gd s u).map Prod.fst =
      if s ∈ gd.map Prod.fst then gd.map Prod.fst
      else gd.map Prod.fst ++ [s] := by
  induction gd with
  | nil => simp [dinsert]
  | cons p rest ih =>
    rcases p with ⟨k, vs⟩
    by_cases hk : k = s
    · subst hk; simp [dinsert]
    · by_cases hm : s ∈ rest.map Prod.fst <;>
        simp [dinsert, hk, Ne.symm hk, hm, ih]

/-- Each `dinsert` grows the total number of grouped rows by one. -/
theorem dinsert_sum (gd : List (Val × List PyDict)) (s : Val) (u : PyDict) :
    ((dinsert gd s u).map (fun p => p.2.length)).sum
      = ((gd.map (fun p => p.2.length)).sum) + 1 := by
  induction gd with
  | nil => simp [dinsert]
  | cons p rest ih =>
    rcases p with ⟨k, vs⟩
    by_cases hk : k = s
    · subst hk; simp [dinsert]; omega
    · simp [dinsert, hk, ih]; omega

/-- Folding the grouping loop over `us` extends a present group by exactly
the rows of `us` with that status, in order. -/
theorem findGroup_foldl_some (us : List PyDict) :
    ∀ (gd : List (Val × List PyDict)) (s : Val) (l : List PyDict),
      findGroup gd s = some l →
      findGroup (us.foldl (fun g u => dinsert g (statusOf u) u) gd) s
        = some (l ++ us.filter (fun u => statusOf u = s)) := by
  induction us with
  | nil =>
    intro gd s l h
    simpa using h
  | cons u us ih =>
    intro gd s l h
    simp only [List.foldl_cons]
    by_cases hs : statusOf u = s
    · subst hs
      have h2 : findGroup (dinsert gd (statusOf u) u) (statusOf u)
          = some (l ++ [u]) := by
        rw [findGroup_dinsert_self, h]
        rfl
      rw [ih _ _ _ h2]
      simp [List.filter_cons]
    · have h2 : findGroup (dinsert gd (statusOf u) u) s = some l := by
        rw [findGroup_dinsert_other _ _ _ _ (fun he => hs he.symm)]
        exact h
      rw [ih _ _ _ h2]
      simp [List.filter_cons, hs]

/-- Folding the grouping loop over `us` creates the group of an absent
status exactly when some row of `us` carries it, holding those rows in
order. -/
theorem findGroup_foldl_none (us : List PyDict) :
    ∀ (gd : List (Val × List PyDict)) (s : Val),
      findGroup gd s = none →
      findGroup (us.foldl (fun g u => dinsert g (statusOf u) u) gd) s
        = if us.filter (fun u => statusOf u = s) = [] then none
          else some (us.filter (fun u => statusOf u = s)) := by
  induction us with
  | nil =>
    intro gd s h
    simpa using h
  | cons u us ih =>
    intro gd s h
    simp only [List.foldl_cons]
    by_cases hs : statusOf u = s
    · subst hs
      have h2 : findGroup (dinsert gd (statusOf u) u) (statusOf u)
          = some [u] := by
        rw [findGroup_dinsert_self, h]
        rfl
      rw [findGroup_foldl_some us _ _ _ h2]
      simp [List.filter_cons]
    · have h2 : findGroup (dinsert gd (statusOf u) u) s = none := by
        rw [findGroup_dinsert_other _ _ _ _ (fun he => hs he.symm)]
        exact h
      rw [ih _ _ h2]
      simp [List.filter_cons, hs]

/-- The grouping loop keeps the status keys distinct. -/
theorem foldl_keys_nodup (us : List PyDict) :
    ∀ gd : List (Val × List PyDict), (gd.map Prod.fst).Nodup →
      ((us.foldl (fun g u => dinsert g (statusOf u) u) gd).map
        Prod.fst).Nodup := by
  induction us with
  | nil =>
    intro gd h
    simpa using h
  | cons u us ih =>
    intro gd h
    simp only [List.foldl_cons]
    apply ih
    rw [dinsert_map_fst]
    by_cases hm : statusOf u ∈ gd.map Prod.fst
    · simpa [hm] using h
    · rw [if_neg hm, List.nodup_append]
      refine ⟨h, List.nodup_singleton _, ?_⟩
      intro a ha hb
      rw [List.mem_singleton] at hb
      subst hb
      exact hm ha

/-- The grouping loop conserves the total number of rows. -/
theorem foldl_sum (us : List PyDict) :
    ∀ gd : List (Val × List PyDict),
      ((us.foldl (fun g u => dinsert g (statusOf u) u) gd).map
        (fun p => p.2.length)).sum
      = ((gd.map (fun p => p.2.length)).sum) + us.length := by
  induction us with
  | nil =>
    intro gd
    simp
  | cons u us ih =>
    intro gd
    simp only [List.foldl_cons, List.length_cons]
    rw [ih, dinsert_sum]
    omega

/-- With distinct keys, membership in the grouped dict determines the
lookup. -/
theorem findGroup_of_mem (gd : List (Val × List PyDict))
    (hnd : (gd.map Prod.fst).Nodup) (s : Val) (l : List PyDict)
    (h : (s, l) ∈ gd) : findGroup gd s = some l := by
  induction gd with
  | nil => cases h
  | cons p rest ih =>
    rcases p with ⟨k, vs⟩
    rw [List.map_cons, List.nodup_cons] at hnd
    rcases List.mem_cons.mp h with he | hm
    · cases he
      simp [findGroup]
    · have hk : k ≠ s := by
        rintro rfl
        exact hnd.1 (List.mem_map.mpr ⟨(k, l), hm, rfl⟩)
      simp only [findGroup, if_neg hk]
      exact ih hnd.2 hm

/-- A successful lookup in the grouped dict is a membership. -/
theorem mem_of_findGroup (gd : List (Val × List PyDict)) (s : Val)
    (l : List PyDict) (h : findGroup gd s = some l) : (s, l) ∈ gd := by
  induction gd with
  | nil => cases h
  | cons p rest ih =>
    rcases p with ⟨k, vs⟩
    by_cases hk : k = s
    · subst hk
      simp [findGroup] at h
      subst h
      exact List.mem_cons_self _ _
    · simp only [findGroup, if_neg hk] at h
      exact List.mem_cons_of_mem _ (ih h)

/-- C10: the grouped dict built by `get_grouped_user_data` partitions the
fetched rows: group keys are distinct, each group holds exactly the rows
with that status in input order, every row lies in the group of its status
(`"unknown"` when the field is missing), and the group sizes add up to the
input length. -/
theorem c10_group_partition (users : List PyDict) :
    ((group_by_status users).map Prod.fst).Nodup ∧
    (∀ p ∈ group_by_status users,
      p.2 = users.filter (fun u => statusOf u = p.1)) ∧
    (∀ u ∈ users, ∃ l, (statusOf u, l) ∈ group_by_status users ∧ u ∈ l) ∧
    ((group_by_status users).map (fun p => p.2.length)).sum
      = users.length := by
  have hnd : ((group_by_status users).map Prod.fst).Nodup :=
    foldl_keys_nodup users [] (by simp)
  refine ⟨hnd, ?_, ?_, ?_⟩
  · rintro ⟨s, l⟩ hp
    have hf : findGroup (group_by_status users) s = some l :=
      findGroup_of_mem _ hnd _ _ hp
    have hopen := findGroup_foldl_none users [] s rfl
    rw [show (group_by_status users)
        = users.foldl (fun g u => dinsert g (statusOf u) u) [] from rfl] at hf
    rw [hopen] at hf
    by_cases hfil : users.filter (fun u => statusOf u = s) = []
    · rw [if_pos hfil] at hf
      cases hf
    · rw [if_neg hfil] at hf
      exact (Option.some.inj hf).symm
  · intro u hu
    have hfil : u ∈ users.filter (fun u' => statusOf u' = statusOf u) :=
      List.mem_filter.mpr ⟨hu, by simp⟩
    have hne : users.filter (fun u' => statusOf u' = statusOf u) ≠ [] :=
      List.ne_nil_of_mem hfil
    have hopen := findGroup_foldl_none users [] (statusOf u) rfl
    rw [if_neg hne] at hopen
    exact ⟨_, mem_of_findGroup _ _ _ hopen, hfil⟩
  · have := foldl_sum users []
    simpa [group_by_status] using this

/-- Witness for C10: a concrete row list with statuses `a`, `b`, missing. -/
theorem c10_group_partition_witness :
    (([(Val.vStr "status", Val.vStr "a")] : PyDict)
        ∈ [[(Val.vStr "status", Val.vStr "a")],
           [(Val.vStr "status", Val.vStr "b")], ([] : PyDict)]) ∧
    ∃ l, (statusOf [(Val.vStr "status", Val.vStr "a")], l)
        ∈ group_by_status [[(Val.vStr "status", Val.vStr "a")],
            [(Val.vStr "status", Val.vStr "b")], ([] : PyDict)]
      ∧ ([(Val.vStr "status", Val.vStr "a")] : PyDict) ∈ l :=
  ⟨by decide,
    (c10_group_partition [[(Val.vStr "status", Val.vStr "a")],
        [(Val.vStr "status", Val.vStr "b")], ([] : PyDict)]).2.2.1
      [(Val.vStr "status", Val.vStr "a")] (by decide)⟩

end CacheSpec
